import Mathlib

/-!
Verification development for the `reload` live-reload daemon (daemon.go).

The Go source is shallowly embedded below: pure helpers (`strings.Split`,
`strings.Replace`, `filepath.Base`, `filepath.Match`, the compiled fallback
regular expression) become executable Lean functions, and the stateful
`runner` goroutine becomes an explicit step function over a `RunnerState`,
driven by the list of restart signals pending on the `startRun` channel.
External library behavior (Go `regexp`, `filepath.Match`) is modelled
faithfully from the Go standard library algorithms, since the repository
delegates to them at those points.
-/

namespace Reload

/-! ## strings.Split(command, " ")  (used by startCommand, daemon.go:66) -/

/-- Go `strings.Split(s, " ")`: split around every single space character;
adjacent separators yield empty fields, and the empty string yields `[[]]`. -/
def goSplitSpace : List Char → List (List Char)
  | [] => [[]]
  | c :: r =>
    if c = ' ' then [] :: goSplitSpace r
    else
      match goSplitSpace r with
      | [] => [[c]]
      | p :: ps => (c :: p) :: ps

/-! ## strings.Replace(command, "./", "", -1)  (daemon.go:169) -/

/-- Go `strings.Replace(s, "./", "", -1)`: remove every (non-overlapping,
left-to-right) occurrence of the substring `./`. -/
def removeDotSlash : List Char → List Char
  | '.' :: '/' :: r => removeDotSlash r
  | c :: r => c :: removeDotSlash r
  | [] => []

def stringsReplaceDotSlash (s : String) : String := ⟨removeDotSlash s.data⟩

/-! ## The pattern configuration (daemon.go:22, 25, 168-173) -/

/-- daemon.go:22 — `const WorkDelay = 500` ("Milliseconds to wait for the
next job to begin after a file change").  Note: this constant is declared in
the source but never referenced anywhere else in daemon.go. -/
def WorkDelay : Nat := 500

/-- daemon.go:25 — the default value of the `-pattern` flag. -/
def FilePattern : String :=
  ".+\\.tpl|.+\\.htm|.+\\.html|.+\\.js|.+\\.css|.+\\.yml|.+\\.yaml|.+\\.exe"

/-- daemon.go:169-170 — `cmdName := strings.Replace(flag_command, "./", "", -1)`
followed by `fullPattern := fmt.Sprintf("(%s|%s)$", cmdName, *flag_pattern)`. -/
def fullPattern (command pat : String) : String :=
  "(" ++ stringsReplaceDotSlash command ++ "|" ++ pat ++ ")$"

/-! ## Model of the Go `regexp` library (used via MustCompile/MatchString)

The repository compiles `fullPattern` with `regexp.MustCompile` and queries it
with `MatchString` (daemon.go:60-62, 173).  The library is modelled by a small
regular-expression syntax covering exactly the constructs appearing in the
patterns the daemon builds (literals, `.`, `+`, alternation, grouping, the
end-of-text anchor `$`, and `\`-escaped literals), an executable matcher with
Go semantics (`.` matches any character except newline; `MatchString` searches
for a match starting at any position), and a parser for that syntax which
rejects anything outside the modelled subset. -/

inductive Re where
  | eps : Re
  | char (c : Char) : Re
  | any : Re
  | eos : Re
  | alt (a b : Re) : Re
  | cat (a b : Re) : Re
  | plus (a : Re) : Re
  deriving DecidableEq, Repr

/-- Iterate a matcher zero or more times (suffixes reachable by repeated
application of `f`, requiring strict progress at each step so the iteration
terminates; repeating an empty match never enlarges the match set). -/
def runStar (f : List Char → List (List Char)) : Nat → List Char → List (List Char)
  | 0, s => [s]
  | n + 1, s =>
    s :: (f s).flatMap fun r => if r.length < s.length then runStar f n r else []

/-- All suffixes `r` such that the expression matches the prefix of `s`
ending where `r` begins.  `eos` matches the empty string only at the very end
of the subject (the suffix `[]`), which models the `$` anchor because the
matcher is only ever applied to genuine suffixes of the subject. -/
def runRe : Re → List Char → List (List Char)
  | .eps, s => [s]
  | .char c, s =>
    match s with
    | [] => []
    | x :: r => if x = c then [r] else []
  | .any, s =>
    match s with
    | [] => []
    | x :: r => if x = '\n' then [] else [r]
  | .eos, s => if s.isEmpty then [[]] else []
  | .alt a b, s => runRe a s ++ runRe b s
  | .cat a b, s => (runRe a s).flatMap (runRe b)
  | .plus a, s =>
    (runRe a s).flatMap fun r =>
      if r.length < s.length then runStar (runRe a) r.length r else [r]

/-- Go `Regexp.MatchString`: unanchored search — the pattern may match
starting at any position of the subject. -/
def reMatch (re : Re) (s : List Char) : Bool :=
  s.tails.any fun t => !(runRe re t).isEmpty

/-- daemon.go:60-62 — `func matchesPattern(pattern *regexp.Regexp, file string) bool`. -/
def matchesPattern (pattern : Re) (file : String) : Bool :=
  reMatch pattern file.data

/-- Characters that are regexp metacharacters (or outside the modelled
subset) and therefore not plain literals. -/
def reSpecials : List Char :=
  ['(', ')', '|', '$', '.', '+', '\\', '*', '?', '[', ']', '^', '\x7b', '\x7d']

mutual

/-- Parse an alternation (`a|b|...`). Fuel-indexed recursive descent. -/
def parseAlt : Nat → List Char → Option (Re × List Char)
  | 0, _ => none
  | n + 1, s =>
    match parseCat n s with
    | none => none
    | some (a, r) =>
      match r with
      | '|' :: r1 =>
        match parseAlt n r1 with
        | none => none
        | some (b, r2) => some (.alt a b, r2)
      | _ => some (a, r)

/-- Parse a concatenation of atoms, each optionally followed by `+`. -/
def parseCat : Nat → List Char → Option (Re × List Char)
  | 0, _ => none
  | n + 1, s =>
    match s with
    | [] => some (.eps, [])
    | ')' :: _ => some (.eps, s)
    | '|' :: _ => some (.eps, s)
    | _ =>
      match parseAtom n s with
      | none => none
      | some (a, r) =>
        match r with
        | '+' :: r1 =>
          match parseCat n r1 with
          | none => none
          | some (b, r2) => some (.cat (.plus a) b, r2)
        | _ =>
          match parseCat n r with
          | none => none
          | some (b, r2) => some (.cat a b, r2)

/-- Parse a single atom: group, `.`, `$`, escaped literal, or plain literal. -/
def parseAtom : Nat → List Char → Option (Re × List Char)
  | 0, _ => none
  | n + 1, s =>
    match s with
    | '(' :: r =>
      match parseAlt n r with
      | none => none
      | some (a, r1) =>
        match r1 with
        | ')' :: r2 => some (a, r2)
        | _ => none
    | '.' :: r => some (.any, r)
    | '$' :: r => some (.eos, r)
    | '\\' :: c :: r => some (.char c, r)
    | c :: r => if c ∈ reSpecials then none else some (.char c, r)
    | [] => none

end

/-- Go `regexp.MustCompile`, modelled: `none` stands for the panic on a
pattern outside the modelled subset or not fully consumed. -/
def regexpMustCompile (s : String) : Option Re :=
  match parseAlt (3 * s.length + 9) s.data with
  | some (re, []) => some re
  | _ => none

/-- The literal regular expression matching exactly the character list `l`. -/
def litRe (l : List Char) : Re :=
  l.foldr (fun c r => Re.cat (Re.char c) r) Re.eps

/-- The shape `(<cmdName>|<user pattern>)$` that `regexpMustCompile` produces
from `fullPattern` when the command name consists of plain literal
characters: the disjunction of the literal command name and the compiled user
pattern, anchored at end-of-text. -/
def fallbackRe (cmdName : List Char) (u : Re) : Re :=
  Re.cat (Re.alt (litRe cmdName) u) (Re.cat Re.eos Re.eps)

/-! ## Model of Go `path/filepath.Base` (daemon.go:182) -/

/-- Strip trailing `/` separators (first step of `filepath.Base`). -/
def stripTrailingSlashes (l : List Char) : List Char :=
  (l.reverse.dropWhile (· = '/')).reverse

/-- The segment after the last `/` (empty if the list is empty). -/
def afterLastSlash (l : List Char) : List Char :=
  l.foldl (fun acc c => if c = '/' then [] else acc ++ [c]) []

/-- Go `filepath.Base` (Unix): `""` gives `"."`; otherwise strip trailing
slashes, take everything after the last slash, and yield `"/"` when nothing
remains (the path consisted only of separators). -/
def filepathBase (s : String) : String :=
  if s = "" then "."
  else
    let l := stripTrailingSlashes s.data
    let r := afterLastSlash l
    if r = [] then "/" else ⟨r⟩

/-! ## Model of Go `path/filepath.Match` (used by globList.Matches, daemon.go:36-45)

Transcribed from the Go standard library `path.Match` with separator `/`.
`Except.error ()` models `ErrBadPattern`.  The loops of the original are
fuel-indexed here; every iteration of each loop consumes at least one pattern
character, so fuel `length + 1` is always sufficient. -/

/-- Leading `*`s of a chunk: whether any star was present, and the rest. -/
def dropStars : List Char → Bool × List Char
  | '*' :: r =>
    let p := dropStars r
    (true, p.2)
  | l => (false, l)

/-- Split off one chunk (a run ending at the next top-level `*`), tracking
whether the scanner is inside a `[...]` class. -/
def chunkSplit : Bool → List Char → List Char × List Char
  | _, [] => ([], [])
  | inr, '\\' :: c :: rest =>
    let p := chunkSplit inr rest
    ('\\' :: c :: p.1, p.2)
  | _, ['\\'] => (['\\'], [])
  | _, '[' :: rest =>
    let p := chunkSplit true rest
    ('[' :: p.1, p.2)
  | _, ']' :: rest =>
    let p := chunkSplit false rest
    (']' :: p.1, p.2)
  | inr, '*' :: rest =>
    if inr then
      let p := chunkSplit true rest
      ('*' :: p.1, p.2)
    else ([], '*' :: rest)
  | inr, c :: rest =>
    let p := chunkSplit inr rest
    (c :: p.1, p.2)

/-- Go `scanChunk`: `(star, chunk, rest)`. -/
def scanChunk (p : List Char) : Bool × List Char × List Char :=
  let d := dropStars p
  let cs := chunkSplit false d.2
  (d.1, cs.1, cs.2)

/-- Go `getEsc`: next (possibly escaped) character of a `[...]` class body. -/
def getEsc : List Char → Except Unit (Char × List Char)
  | [] => .error ()
  | '-' :: _ => .error ()
  | ']' :: _ => .error ()
  | '\\' :: rest =>
    match rest with
    | [] => .error ()
    | c :: rest2 => if rest2.isEmpty then .error () else .ok (c, rest2)
  | c :: rest => if rest.isEmpty then .error () else .ok (c, rest)

/-- The range-parsing loop inside Go `matchChunk` for a `[...]` class:
accumulates whether `r` fell in any range, until the closing `]`. -/
def rangesLoop (r : Char) : Nat → List Char → Nat → Bool → Except Unit (Bool × List Char)
  | 0, _, _, _ => .error ()
  | _ + 1, ']' :: rest, _ + 1, matched => .ok (matched, rest)
  | fuel + 1, chunk, nrange, matched =>
    match getEsc chunk with
    | .error e => .error e
    | .ok (lo, chunk1) =>
      match chunk1 with
      | '-' :: chunk2 =>
        match getEsc chunk2 with
        | .error e => .error e
        | .ok (hi, chunk3) =>
          rangesLoop r fuel chunk3 (nrange + 1) (matched || (lo ≤ r && r ≤ hi))
      | _ => rangesLoop r fuel chunk1 (nrange + 1) (matched || (lo ≤ r && r ≤ lo))

/-- Go `matchChunk`: match a chunk against the head of `s`.
`ok (some t)` = matched leaving `t`; `ok none` = mismatch (but the chunk is
syntactically valid); `error` = bad pattern.  The `failed` flag mirrors the
original: after a mismatch the chunk is still scanned for syntax errors. -/
def matchChunkLoop : Nat → Bool → List Char → List Char → Except Unit (Option (List Char))
  | 0, _, _, _ => .error ()
  | _ + 1, failed, [], s => if failed then .ok none else .ok (some s)
  | fuel + 1, failed0, ch :: chrest, s =>
    let failed := if !failed0 && s.isEmpty then true else failed0
    match ch, chrest with
    | '[', ch1 =>
      let r := if failed then Char.ofNat 0 else s.headD (Char.ofNat 0)
      let s2 := if failed then s else s.tail
      let nc :=
        match ch1 with
        | '^' :: t => (true, t)
        | _ => (false, ch1)
      match rangesLoop r (nc.2.length + 1) nc.2 0 false with
      | .error e => .error e
      | .ok (m, ch3) =>
        matchChunkLoop fuel (if m == nc.1 then true else failed) ch3 s2
    | '?', ch1 =>
      if failed then matchChunkLoop fuel failed ch1 s
      else
        matchChunkLoop fuel (if s.headD (Char.ofNat 0) == '/' then true else failed)
          ch1 s.tail
    | '\\', ch1 =>
      match ch1 with
      | [] => .error ()
      | c :: ch2 =>
        if failed then matchChunkLoop fuel failed ch2 s
        else
          matchChunkLoop fuel (if s.headD (Char.ofNat 0) != c then true else failed)
            ch2 s.tail
    | c, ch1 =>
      if failed then matchChunkLoop fuel failed ch1 s
      else
        matchChunkLoop fuel (if s.headD (Char.ofNat 0) != c then true else failed)
          ch1 s.tail

def matchChunk (chunk s : List Char) : Except Unit (Option (List Char)) :=
  matchChunkLoop (chunk.length + 1) false chunk s

/-- The inner loop of Go `Match` for a starred chunk: try the chunk at every
later position of `name` up to (not past) a `/`.  `patEmpty` tells whether
the remaining pattern is empty (in which case a non-final match keeps
searching). -/
def starLoop (chunk : List Char) (patEmpty : Bool) : List Char → Except Unit (Option (List Char))
  | [] => .ok none
  | c :: name1 =>
    if c == '/' then .ok none
    else
      match matchChunk chunk name1 with
      | .error e => .error e
      | .ok (some t) =>
        if patEmpty && !t.isEmpty then starLoop chunk patEmpty name1
        else .ok (some t)
      | .ok none => starLoop chunk patEmpty name1

/-- The trailing syntax-validation loop of Go `Match` (runs before returning
`false` so that bad patterns are still reported). -/
def syntaxCheckLoop : Nat → List Char → Except Unit Bool
  | 0, _ => .error ()
  | _ + 1, [] => .ok false
  | fuel + 1, pat =>
    let sc := scanChunk pat
    match matchChunk sc.2.1 [] with
    | .error e => .error e
    | .ok _ => syntaxCheckLoop fuel sc.2.2

/-- Main loop of Go `path.Match`. -/
def goMatchLoop : Nat → List Char → List Char → Except Unit Bool
  | 0, _, _ => .error ()
  | _ + 1, [], name => .ok name.isEmpty
  | fuel + 1, pat, name =>
    let sc := scanChunk pat
    let star := sc.1
    let chunk := sc.2.1
    let rest := sc.2.2
    if star && chunk.isEmpty then .ok (!name.contains '/')
    else
      match matchChunk chunk name with
      | .error _ => .error ()
      | .ok (some t) =>
        if t.isEmpty || !rest.isEmpty then goMatchLoop fuel rest t
        else
          if star then
            match starLoop chunk rest.isEmpty name with
            | .error e => .error e
            | .ok (some t2) => goMatchLoop fuel rest t2
            | .ok none => syntaxCheckLoop (rest.length + 1) rest
          else syntaxCheckLoop (rest.length + 1) rest
      | .ok none =>
        if star then
          match starLoop chunk rest.isEmpty name with
          | .error e => .error e
          | .ok (some t2) => goMatchLoop fuel rest t2
          | .ok none => syntaxCheckLoop (rest.length + 1) rest
        else syntaxCheckLoop (rest.length + 1) rest

/-- Go `filepath.Match(pattern, name)` (Unix separator). -/
def filepathMatch (pattern name : String) : Except Unit Bool :=
  goMatchLoop (pattern.length + 1) pattern.data name.data

/-! ## globList.Matches (daemon.go:36-45) and the dispatch-loop gate (daemon.go:180-189) -/

/-- daemon.go:36-45 — `func (g *globList) Matches(value string) bool`.
A bad glob pattern makes the whole daemon abort via `logger.Fatalf`,
modelled as `Except.error ()`. -/
def globListMatches (g : List String) (value : String) : Except Unit Bool :=
  match g with
  | [] => .ok false
  | v :: rest =>
    match filepathMatch v value with
    | .error e => .error e
    | .ok true => .ok true
    | .ok false => globListMatches rest value

/-- daemon.go:180-189 — the body of the `case ev := <-watcher.Event` branch:
events with an empty name are ignored; otherwise the event is a candidate if
its base name matches an included-file glob or the full path matches the
compiled pattern, and a candidate enqueues a restart signal unless its base
name matches an excluded-file glob.  `ok true` = a restart signal is sent on
`startRun`; `ok false` = no signal; `error` = the daemon dies on a bad glob. -/
def handleEvent (includedFiles excludedFiles : List String) (pattern : Re)
    (name : String) : Except Unit Bool :=
  if name = "" then .ok false
  else
    let base := filepathBase name
    match globListMatches includedFiles base with
    | .error e => .error e
    | .ok incM =>
      if incM || matchesPattern pattern name then
        match globListMatches excludedFiles base with
        | .error e => .error e
        | .ok excM => .ok (!excM)
      else .ok false

/-! ## startCommand (daemon.go:65-87)

Outcomes of the OS process-control calls (`StdoutPipe`, `StderrPipe`,
`cmd.Start`, `Kill`, `Wait`) are supplied by environment records, since they
are decided by the operating system, not by this program. -/

inductive Stdio where
  | unset : Stdio
  | pipe : Stdio
  | parentStdout : Stdio
  | parentStderr : Stdio
  deriving DecidableEq, Repr

/-- The configuration of an `exec.Cmd` as built by `startCommand`. -/
structure GoCmd where
  name : String
  args : List String
  stdout : Stdio
  stderr : Stdio
  deriving DecidableEq, Repr

/-- Outcomes of the three fallible OS calls made by `startCommand`. -/
structure StartEnv where
  stdoutPipeErr : Bool
  stderrPipeErr : Bool
  startErr : Bool
  deriving DecidableEq, Repr

/-- daemon.go:65-87 — `startCommand` splits the command string on single
spaces (`strings.Split(command, " ")`), takes the head as the executable and
the remaining fields as arguments, requests stdout/stderr pipes (each can
fail), then overwrites both streams with the daemon's own
`os.Stdout`/`os.Stderr`, and finally starts the process (which can fail). -/
def startCommand (env : StartEnv) (command : String) : Except String GoCmd :=
  let args := (goSplitSpace command.data).map fun l => (⟨l⟩ : String)
  let cmd : GoCmd :=
    { name := args.headD "", args := args.tail, stdout := .unset, stderr := .unset }
  if env.stdoutPipeErr then .error "cannot get stdout pipe for command"
  else
    let cmd1 : GoCmd := { cmd with stdout := .pipe }
    if env.stderrPipeErr then .error "cannot get stderr pipe for command"
    else
      let cmd2 : GoCmd := { cmd1 with stderr := .pipe }
      let cmd3 : GoCmd := { cmd2 with stdout := .parentStdout, stderr := .parentStderr }
      if env.startErr then .error "cannot start command"
      else .ok cmd3

/-! ## The runner goroutine (daemon.go:91-107) and killProcess (daemon.go:109-119)

The runner is an infinite loop: receive one token from `startRun`, kill the
current process if there is one (aborting the whole daemon if `Kill` or
`Wait` fails), start the command (aborting the daemon on failure), and record
the new process.  It is embedded as a step function consuming one pending
signal at a time; `runnerRun` folds it over the list of signals queued on the
channel.  The observable history is a trace of events; `Ev.slept` is in the
event vocabulary so that any delay the code performed would be visible in the
trace (the source performs none: `WorkDelay` is never referenced). -/

inductive Ev where
  | killed (pid : Nat) : Ev
  | reaped (pid : Nat) : Ev
  | started (pid : Nat) : Ev
  | slept (ms : Nat) : Ev
  deriving DecidableEq, Repr

/-- OS-decided outcomes of the process-control calls, per process id
(`killErr pid`/`waitErr pid`: whether `Kill`/`Wait` on `pid` fails) and per
spawn attempt (`startEnv n`: the `StartEnv` for the n-th spawn). -/
structure RunnerEnv where
  killErr : Nat → Bool
  waitErr : Nat → Bool
  startEnv : Nat → StartEnv

inductive KillResult where
  | fatalKill : KillResult
  | fatalWait : KillResult
  | reloaded : KillResult
  deriving DecidableEq, Repr

/-- daemon.go:109-119 — `killProcess`: `process.Kill()` (fatal to the whole
daemon on error), then `process.Wait()` (fatal on error), then logs
"Reloaded". -/
def killProcess (env : RunnerEnv) (pid : Nat) : KillResult :=
  if env.killErr pid then .fatalKill
  else if env.waitErr pid then .fatalWait
  else .reloaded

/-- The supervisor state: the current child (if any), the next fresh process
id, the chronological event trace, and the daemon's exit code once
`logger.Fatal` has fired (`logger.Fatal` prints and calls `os.Exit(1)`,
terminating every goroutine). -/
structure RunnerState where
  currentProcess : Option Nat
  nextPid : Nat
  trace : List Ev
  exitCode : Option Nat
  deriving Repr

def initialRunnerState : RunnerState :=
  { currentProcess := none, nextPid := 0, trace := [], exitCode := none }

/-- The spawn half of a runner iteration (daemon.go:100-105): `startCommand`,
`logger.Fatal` on error, otherwise record the new current process. -/
def startPhase (env : RunnerEnv) (command : String) (st : RunnerState) : RunnerState :=
  match startCommand (env.startEnv st.nextPid) command with
  | .error _ => { st with exitCode := some 1 }
  | .ok _ =>
    { st with trace := st.trace ++ [Ev.started st.nextPid],
              currentProcess := some st.nextPid,
              nextPid := st.nextPid + 1 }

/-- One iteration of the runner loop (daemon.go:93-106), consuming one
restart signal: if the daemon has already exited nothing happens; otherwise
kill the current process if any (recording `killed`/`reaped`, or dying with
exit code 1 when `Kill`/`Wait` fails) and then spawn the new child. -/
def runnerStep (env : RunnerEnv) (command : String) (st : RunnerState) : RunnerState :=
  match st.exitCode with
  | some _ => st
  | none =>
    match st.currentProcess with
    | none => startPhase env command st
    | some pid =>
      match killProcess env pid with
      | .fatalKill => { st with exitCode := some 1 }
      | .fatalWait => { st with trace := st.trace ++ [Ev.killed pid], exitCode := some 1 }
      | .reloaded =>
        startPhase env command
          { st with trace := st.trace ++ [Ev.killed pid, Ev.reaped pid] }

/-- The runner consuming a queue of pending restart signals in order. -/
def runnerRun (env : RunnerEnv) (command : String) (sigs : List Unit) : RunnerState :=
  sigs.foldl (fun st _ => runnerStep env command st) initialRunnerState

/-! ## Trace observations -/

def isStartedEv : Ev → Bool
  | .started _ => true
  | _ => false

def isSleptEv : Ev → Bool
  | .slept _ => true
  | _ => false

/-- Number of child processes started in a trace. -/
def startedCount (t : List Ev) : Nat := t.countP isStartedEv

/-- Number of sleep/delay events in a trace. -/
def sleptCount (t : List Ev) : Nat := t.countP isSleptEv

/-- Contribution of one event to the number of live children: a child is
live from its `started` event until its `reaped` event (its `Wait` has
returned). -/
def liveDelta : Ev → Int
  | .started _ => 1
  | .reaped _ => -1
  | _ => 0

/-- Number of live children after the events of `t`. -/
def liveCount (t : List Ev) : Int := (t.map liveDelta).sum

/-! ## Channel creation and the initial signal (daemon.go:174-176) -/

/-- A buffered `chan struct{}` as a capacity plus its queued tokens. -/
structure Chan where
  capacity : Nat
  buffer : List Unit
  deriving DecidableEq, Repr

/-- A channel send: enqueue if there is room, otherwise the sender would
block (`none`). -/
def chanSend (ch : Chan) : Option Chan :=
  if ch.buffer.length < ch.capacity then some { ch with buffer := ch.buffer ++ [()] }
  else none

/-- daemon.go:174 — `startRun := make(chan struct{}, 20)`. -/
def startRunChan : Chan := { capacity := 20, buffer := [] }

/-- daemon.go:175 — `startRun <- struct{}{}`: the single unconditional
initial restart signal, enqueued after the watch tree is set up and before
the dispatch loop begins. -/
def startRunInitial : Chan := (chanSend startRunChan).getD startRunChan

/-! ## Interrupt handling (absent from daemon.go)

daemon.go imports `os`, `os/exec` and `syscall` but not `os/signal`, and
never calls `signal.Notify` (or any equivalent): the program installs no
handler for any OS signal, and its dispatch loop (daemon.go:178-200) selects
only on `watcher.Event` and `watcher.Error`.  Consequently, when the operator
sends an interrupt, the Go runtime's default disposition applies: the daemon
process dies from the signal at once; no daemon code runs, so the daemon
neither kills nor reaps its child, and the exit is the signal death, not a
normal exit with code 0. -/

inductive OsSignal where
  | interrupt : OsSignal
  | terminate : OsSignal
  | hangup : OsSignal
  deriving DecidableEq, Repr

/-- The OS signals for which daemon.go installs a handler: none (the source
contains no use of `os/signal`). -/
def installedSignalHandlers : List OsSignal := []

inductive SelectCase where
  | watcherEvent : SelectCase
  | watcherError : SelectCase
  deriving DecidableEq, Repr

/-- daemon.go:179-199 — the two (and only two) cases of the dispatch loop's
`select`. -/
def mainDispatchCases : List SelectCase :=
  [SelectCase.watcherEvent, SelectCase.watcherError]

/-- What is observable about the daemon when an interrupt arrives while a
child is running. -/
structure InterruptOutcome where
  childReapedBeforeExit : Bool
  exitCodeZero : Bool
  deriving DecidableEq, Repr

/-- The Go runtime's default reaction to an unhandled interrupt: the process
dies immediately from the signal (non-zero termination status) and none of
the program's code runs, so the child is not reaped by the daemon. -/
def runtimeDefaultInterrupt : InterruptOutcome :=
  { childReapedBeforeExit := false, exitCodeZero := false }

/-- The daemon's behavior on an interrupt.  Because
`installedSignalHandlers = []` (daemon.go installs no signal handler), this
is exactly the runtime default. -/
def daemonOnInterrupt : InterruptOutcome := runtimeDefaultInterrupt

/-! ## Convenience environments -/

/-- Every OS call succeeds. -/
def allOkStart : StartEnv :=
  { stdoutPipeErr := false, stderrPipeErr := false, startErr := false }

/-- Every kill, wait and spawn succeeds. -/
def allOkEnv : RunnerEnv :=
  { killErr := fun _ => false, waitErr := fun _ => false, startEnv := fun _ => allOkStart }

/-! ## Helper lemmas -/

lemma goSplitSpace_ne_nil (l : List Char) : goSplitSpace l ≠ [] := by
  cases l with
  | nil => simp [goSplitSpace]
  | cons c r =>
    simp only [goSplitSpace]
    split
    · simp
    · split <;> simp

lemma goSplitSpace_no_space (l : List Char) : ∀ p ∈ goSplitSpace l, ' ' ∉ p := by
  induction l with
  | nil =>
    intro p hp
    simp [goSplitSpace] at hp
    subst hp
    simp
  | cons c r ih =>
    intro p hp
    simp only [goSplitSpace] at hp
    by_cases h : c = ' '
    · rw [if_pos h] at hp
      rcases List.mem_cons.mp hp with rfl | hmem
      · simp
      · exact ih p hmem
    · rw [if_neg h] at hp
      cases hgs : goSplitSpace r with
      | nil => exact absurd hgs (goSplitSpace_ne_nil r)
      | cons q qs =>
        rw [hgs] at hp
        rcases List.mem_cons.mp hp with rfl | hmem
        · intro hsp
          rcases List.mem_cons.mp hsp with heq | hq
          · exact h heq.symm
          · exact ih q (hgs ▸ List.mem_cons_self q qs) hq
        · exact ih p (hgs ▸ List.mem_cons.mpr (Or.inr hmem))

lemma startCommand_allOk (c : String) :
    startCommand allOkStart c = .ok
      { name := ((goSplitSpace c.data).map fun l => (⟨l⟩ : String)).headD "",
        args := ((goSplitSpace c.data).map fun l => (⟨l⟩ : String)).tail,
        stdout := .parentStdout, stderr := .parentStderr } := rfl

lemma runnerStep_absorb (env : RunnerEnv) (c : String) (st : RunnerState) (k : Nat)
    (h : st.exitCode = some k) : runnerStep env c st = st := by
  simp [runnerStep, h]

lemma foldl_runnerStep_absorb (env : RunnerEnv) (c : String) (st : RunnerState) (k : Nat)
    (h : st.exitCode = some k) (sigs : List Unit) :
    sigs.foldl (fun s _ => runnerStep env c s) st = st := by
  induction sigs with
  | nil => rfl
  | cons hd tl ih => simpa [runnerStep_absorb env c st k h] using ih

lemma runnerStep_allOk (c : String) (st : RunnerState) (h : st.exitCode = none) :
    (runnerStep allOkEnv c st).exitCode = none ∧
    startedCount (runnerStep allOkEnv c st).trace = startedCount st.trace + 1 := by
  cases hc : st.currentProcess with
  | none =>
    simp [runnerStep, h, hc, startPhase, allOkEnv, startCommand_allOk, startedCount,
      List.countP_append, List.countP_cons, isStartedEv]
  | some pid =>
    simp [runnerStep, h, hc, killProcess, allOkEnv, startPhase, startCommand_allOk,
      startedCount, List.countP_append, List.countP_cons, isStartedEv]

lemma runnerRun_allOk_aux (c : String) (sigs : List Unit) :
    ∀ st : RunnerState, st.exitCode = none →
      (sigs.foldl (fun s _ => runnerStep allOkEnv c s) st).exitCode = none ∧
      startedCount (sigs.foldl (fun s _ => runnerStep allOkEnv c s) st).trace
        = startedCount st.trace + sigs.length := by
  induction sigs with
  | nil =>
    intro st h
    exact ⟨h, by simp⟩
  | cons hd tl ih =>
    intro st h
    obtain ⟨h1, h2⟩ := runnerStep_allOk c st h
    obtain ⟨h3, h4⟩ := ih (runnerStep allOkEnv c st) h1
    refine ⟨h3, ?_⟩
    have hfold : (hd :: tl).foldl (fun s _ => runnerStep allOkEnv c s) st
        = tl.foldl (fun s _ => runnerStep allOkEnv c s) (runnerStep allOkEnv c st) := rfl
    rw [hfold, h4, h2]
    simp only [List.length_cons]
    omega

/-- With every OS call succeeding, the runner performs exactly one restart
per pending signal. -/
lemma runnerRun_allOk (c : String) (sigs : List Unit) :
    (runnerRun allOkEnv c sigs).exitCode = none ∧
    startedCount (runnerRun allOkEnv c sigs).trace = sigs.length := by
  have h := runnerRun_allOk_aux c sigs initialRunnerState rfl
  simpa [runnerRun, initialRunnerState, startedCount] using h

/-! ### The at-most-one-live-child trace invariant -/

/-- Every prefix of the trace has at most one live child. -/
def TraceLiveBound (t : List Ev) : Prop := ∀ n : Nat, liveCount (t.take n) ≤ 1

lemma liveCount_append (a b : List Ev) :
    liveCount (a ++ b) = liveCount a + liveCount b := by
  simp [liveCount]

lemma traceLiveBound_append {l evs : List Ev} (h1 : TraceLiveBound l)
    (h2 : ∀ m : Nat, liveCount l + liveCount (evs.take m) ≤ 1) :
    TraceLiveBound (l ++ evs) := by
  intro n
  rw [List.take_append_eq_append_take, liveCount_append]
  by_cases hn : n ≤ l.length
  · have h0 : n - l.length = 0 := Nat.sub_eq_zero_of_le hn
    rw [h0]
    simpa [liveCount] using h1 n
  · have hl : l.take n = l := List.take_of_length_le (Nat.le_of_lt (Nat.lt_of_not_le hn))
    rw [hl]
    exact h2 _

/-- The runner invariant: every prefix of the trace shows at most one live
child, and (while the daemon is alive) the trace count agrees with whether a
current process is recorded. -/
def RunnerInv (st : RunnerState) : Prop :=
  TraceLiveBound st.trace ∧
  (st.exitCode = none →
    (st.currentProcess = none → liveCount st.trace = 0) ∧
    (∀ pid, st.currentProcess = some pid → liveCount st.trace = 1))

lemma startPhase_inv (env : RunnerEnv) (c : String) (st : RunnerState)
    (hb : TraceLiveBound st.trace) (hl : liveCount st.trace = 0) :
    RunnerInv (startPhase env c st) := by
  cases hs : startCommand (env.startEnv st.nextPid) c with
  | error e =>
    rw [show startPhase env c st = { st with exitCode := some 1 } by
      simp [startPhase, hs]]
    refine ⟨hb, ?_⟩
    intro hx
    simp at hx
  | ok cmd =>
    have hred : startPhase env c st =
        { st with trace := st.trace ++ [Ev.started st.nextPid],
                  currentProcess := some st.nextPid,
                  nextPid := st.nextPid + 1 } := by
      simp [startPhase, hs]
    rw [hred]
    refine ⟨?_, ?_⟩
    · refine traceLiveBound_append hb ?_
      intro m
      rw [hl]
      rcases m with _ | m <;> simp [liveCount, liveDelta]
    · intro _
      refine ⟨?_, ?_⟩
      · intro habs
        simp at habs
      · intro pid _
        have htr : ({ st with trace := st.trace ++ [Ev.started st.nextPid],
                              currentProcess := some st.nextPid,
                              nextPid := st.nextPid + 1 } : RunnerState).trace
            = st.trace ++ [Ev.started st.nextPid] := rfl
        rw [htr, liveCount_append, hl]
        simp [liveCount, liveDelta]

lemma runnerStep_inv (env : RunnerEnv) (c : String) (st : RunnerState)
    (h : RunnerInv st) : RunnerInv (runnerStep env c st) := by
  obtain ⟨hb, hg⟩ := h
  cases hx : st.exitCode with
  | some k => rw [runnerStep_absorb env c st k hx]; exact ⟨hb, hg⟩
  | none =>
    cases hc : st.currentProcess with
    | none =>
      have hl : liveCount st.trace = 0 := (hg hx).1 hc
      rw [show runnerStep env c st = startPhase env c st by simp [runnerStep, hx, hc]]
      exact startPhase_inv env c st hb hl
    | some pid =>
      have hl : liveCount st.trace = 1 := (hg hx).2 pid hc
      cases hkr : killProcess env pid with
      | fatalKill =>
        rw [show runnerStep env c st = { st with exitCode := some 1 } by
          simp [runnerStep, hx, hc, hkr]]
        refine ⟨hb, ?_⟩
        intro habs
        simp at habs
      | fatalWait =>
        rw [show runnerStep env c st =
            { st with trace := st.trace ++ [Ev.killed pid], exitCode := some 1 } by
          simp [runnerStep, hx, hc, hkr]]
        refine ⟨?_, ?_⟩
        · refine traceLiveBound_append hb ?_
          intro m
          rw [hl]
          cases m <;> simp [liveCount, liveDelta]
        · intro habs
          simp at habs
      | reloaded =>
        rw [show runnerStep env c st =
            startPhase env c { st with trace := st.trace ++ [Ev.killed pid, Ev.reaped pid] } by
          simp [runnerStep, hx, hc, hkr]]
        refine startPhase_inv env c _ ?_ ?_
        · refine traceLiveBound_append hb ?_
          intro m
          rw [hl]
          rcases m with _ | _ | m <;> simp [liveCount, liveDelta]
        · rw [show ({ st with trace := st.trace ++ [Ev.killed pid, Ev.reaped pid] } :
              RunnerState).trace = st.trace ++ [Ev.killed pid, Ev.reaped pid] from rfl]
          rw [liveCount_append, hl]
          simp [liveCount, liveDelta]

lemma runnerRun_inv (env : RunnerEnv) (c : String) (sigs : List Unit) :
    RunnerInv (runnerRun env c sigs) := by
  have haux : ∀ st : RunnerState, RunnerInv st →
      RunnerInv (sigs.foldl (fun s _ => runnerStep env c s) st) := by
    induction sigs with
    | nil => intro st h; exact h
    | cons hd tl ih =>
      intro st h
      simpa only [List.foldl_cons] using ih _ (runnerStep_inv env c st h)
  refine haux initialRunnerState ⟨?_, ?_⟩
  · intro n; simp [initialRunnerState, liveCount]
  · intro _; simp [initialRunnerState, liveCount]

/-! ### The runner never sleeps -/

lemma sleptCount_startPhase (env : RunnerEnv) (c : String) (st : RunnerState) :
    sleptCount (startPhase env c st).trace = sleptCount st.trace := by
  unfold startPhase
  cases startCommand (env.startEnv st.nextPid) c <;>
    simp [sleptCount, List.countP_append, List.countP_cons, isSleptEv]

lemma sleptCount_step (env : RunnerEnv) (c : String) (st : RunnerState) :
    sleptCount (runnerStep env c st).trace = sleptCount st.trace := by
  cases hx : st.exitCode with
  | some k => rw [runnerStep_absorb env c st k hx]
  | none =>
    cases hc : st.currentProcess with
    | none =>
      rw [show runnerStep env c st = startPhase env c st by simp [runnerStep, hx, hc]]
      exact sleptCount_startPhase env c st
    | some pid =>
      cases hkr : killProcess env pid with
      | fatalKill =>
        rw [show runnerStep env c st = { st with exitCode := some 1 } by
          simp [runnerStep, hx, hc, hkr]]
      | fatalWait =>
        rw [show runnerStep env c st =
            { st with trace := st.trace ++ [Ev.killed pid], exitCode := some 1 } by
          simp [runnerStep, hx, hc, hkr]]
        simp [sleptCount, List.countP_append, List.countP_cons, isSleptEv]
      | reloaded =>
        rw [show runnerStep env c st =
            startPhase env c
              { st with trace := st.trace ++ [Ev.killed pid, Ev.reaped pid] } by
          simp [runnerStep, hx, hc, hkr]]
        rw [sleptCount_startPhase]
        simp [sleptCount, List.countP_append, List.countP_cons, isSleptEv]

lemma sleptCount_run (env : RunnerEnv) (c : String) (sigs : List Unit) :
    sleptCount (runnerRun env c sigs).trace = 0 := by
  have haux : ∀ st : RunnerState,
      sleptCount (sigs.foldl (fun s _ => runnerStep env c s) st).trace
        = sleptCount st.trace := by
    induction sigs with
    | nil => intro st; rfl
    | cons hd tl ih =>
      intro st
      simpa only [List.foldl_cons, sleptCount_step] using ih (runnerStep env c st)
  simpa [runnerRun, initialRunnerState, sleptCount] using haux initialRunnerState

/-! ### Regular-expression facts for the fallback pattern -/

lemma runRe_litRe_self (l : List Char) : runRe (litRe l) l = [[]] := by
  induction l with
  | nil => rfl
  | cons c t ih =>
    show runRe (Re.cat (Re.char c) (litRe t)) (c :: t) = [[]]
    simp [runRe, ih]

lemma fallbackRe_matches (cmdName : List Char) (u : Re) (path : List Char)
    (h : cmdName <:+ path) : reMatch (fallbackRe cmdName u) path = true := by
  unfold reMatch
  rw [List.any_eq_true]
  refine ⟨cmdName, (List.mem_tails _ _).mpr h, ?_⟩
  have hmem : ([] : List Char) ∈ runRe (fallbackRe cmdName u) cmdName := by
    unfold fallbackRe
    rw [show runRe (Re.cat (Re.alt (litRe cmdName) u) (Re.cat Re.eos Re.eps)) cmdName
        = (runRe (Re.alt (litRe cmdName) u) cmdName).flatMap
            (runRe (Re.cat Re.eos Re.eps)) from rfl]
    rw [List.mem_flatMap]
    refine ⟨[], ?_, ?_⟩
    · rw [show runRe (Re.alt (litRe cmdName) u) cmdName
          = runRe (litRe cmdName) cmdName ++ runRe u cmdName from rfl]
      rw [runRe_litRe_self]
      exact List.mem_append_left _ (List.mem_singleton_self _)
    · simp [runRe]
  cases hr : runRe (fallbackRe cmdName u) cmdName with
  | nil => rw [hr] at hmem; exact absurd hmem (List.not_mem_nil _)
  | cons a l => simp

lemma handleEvent_no_globs (pattern : Re) (name : String) (h0 : name ≠ "")
    (hm : matchesPattern pattern name = true) :
    handleEvent [] [] pattern name = .ok true := by
  simp [handleEvent, h0, hm, globListMatches]

/-! ## The claims -/

/-- C1 counterexample: the claim says a burst of N restart signals already
enqueued before the supervisor begins its next restart is drained into
exactly one restart.  On the code this is false: the runner of daemon.go
receives signals one at a time and restarts once per signal, with no drain
step.  With a burst of 2 pending signals (all OS calls succeeding), the
runner starts 2 child processes, not 1. -/
theorem C1_counterexample :
    startedCount (runnerRun allOkEnv "myapp" [(), ()]).trace = 2 ∧
    ¬ startedCount (runnerRun allOkEnv "myapp" [(), ()]).trace = 1 := by
  have h2 : startedCount (runnerRun allOkEnv "myapp" [(), ()]).trace = 2 := by
    simpa using (runnerRun_allOk "myapp" [(), ()]).2
  refine ⟨h2, ?_⟩
  rw [h2]
  decide

/-- C1 amended: for every burst of N restart signals already enqueued before
the supervisor begins its next restart, the runner (daemon.go:91-107)
performs exactly N restarts — one per signal — because it never drains the
queue before starting the new child. -/
theorem C1_amended_one_restart_per_signal (command : String) (n : Nat) :
    startedCount (runnerRun allOkEnv command (List.replicate n ())).trace = n := by
  simpa using (runnerRun_allOk command (List.replicate n ())).2

/-- C2 counterexample: the claim says that after more than 10 restarts with
no 15-second quiet period the supervisor exits non-zero and never starts the
11th child.  The code of daemon.go keeps no restart counter and consults no
clock: with 11 back-to-back pending signals (a fortiori within any
15-second window) the runner starts 11 children and the daemon is still
running (no exit code). -/
theorem C2_counterexample :
    startedCount (runnerRun allOkEnv "myapp" (List.replicate 11 ())).trace = 11 ∧
    (runnerRun allOkEnv "myapp" (List.replicate 11 ())).exitCode = none := by
  have h := runnerRun_allOk "myapp" (List.replicate 11 ())
  exact ⟨by simpa using h.2, h.1⟩

/-- C2 amended: the supervisor has no runaway-restart guard: for every
number n of pending restart signals it performs all n restarts (the code is
independent of timing, so this holds in particular for n restarts inside a
15-second window) and never terminates the daemon because of restart
frequency — the only fatal conditions in the runner are kill/wait/spawn
failures. -/
theorem C2_amended_no_runaway_guard (command : String) (n : Nat) :
    (runnerRun allOkEnv command (List.replicate n ())).exitCode = none ∧
    startedCount (runnerRun allOkEnv command (List.replicate n ())).trace = n := by
  have h := runnerRun_allOk command (List.replicate n ())
  exact ⟨h.1, by simpa using h.2⟩

/-- C3: the claim (and the comment on `WorkDelay` in daemon.go:21-22) says
the supervisor waits a fixed settle delay before spawning the new child.
The constant `WorkDelay = 500` exists but is never referenced: in every
execution of the runner, over any environment and any pending signals, the
trace contains no sleep event at all — the new child is spawned immediately. -/
theorem C3_workdelay_declared_but_never_applied :
    WorkDelay = 500 ∧
    ∀ (env : RunnerEnv) (command : String) (sigs : List Unit),
      sleptCount (runnerRun env command sigs).trace = 0 :=
  ⟨rfl, fun env command sigs => sleptCount_run env command sigs⟩

/-- C4: at every point of every execution of the runner loop, at most one
managed child process is live: every prefix of the runner trace shows at
most one started-but-not-yet-reaped process, so the old child's reap (its
`Wait` returning) strictly precedes the new child's start. -/
theorem C4_at_most_one_live_child (env : RunnerEnv) (command : String)
    (sigs : List Unit) (n : Nat) :
    liveCount ((runnerRun env command sigs).trace.take n) ≤ 1 :=
  (runnerRun_inv env command sigs).1 n

/-- C5: for every event whose base name matches an excluded-file glob, the
dispatch loop enqueues no restart signal, regardless of the include globs
and of the compiled fallback pattern (exclusion takes precedence over both
candidate conditions). -/
theorem C5_excluded_glob_blocks_restart (inc exc : List String) (pattern : Re)
    (name : String)
    (hexc : globListMatches exc (filepathBase name) = .ok true) :
    handleEvent inc exc pattern name ≠ .ok true := by
  by_cases h0 : name = ""
  · simp [handleEvent, h0]
  · cases hinc : globListMatches inc (filepathBase name) with
    | error e => simp [handleEvent, h0, hinc]
    | ok incM =>
      by_cases hcand : (incM || matchesPattern pattern name) = true
      · simp [handleEvent, h0, hinc, hcand, hexc]
      · simp [handleEvent, h0, hinc, hcand]

/-- C5 witness: the file `x.log` matches the excluded glob `*.log` and is
not enqueued even though it also matches the include glob `*`. -/
theorem C5_excluded_glob_blocks_restart_witness :
    globListMatches ["*.log"] (filepathBase "x.log") = Except.ok true ∧
    handleEvent ["*"] ["*.log"] Re.eps "x.log" ≠ Except.ok true :=
  ⟨rfl, C5_excluded_glob_blocks_restart ["*"] ["*.log"] Re.eps "x.log" rfl⟩

/-- C6: if killing the current child fails, or waiting for (reaping) the
killed child fails, `killProcess` aborts the whole daemon (`logger.Fatal`,
exit code 1): the step starts no new child, and no subsequent signal is ever
processed again. -/
theorem C6_kill_or_wait_error_is_fatal (env : RunnerEnv) (command : String)
    (st : RunnerState) (pid : Nat)
    (hx : st.exitCode = none) (hc : st.currentProcess = some pid)
    (herr : env.killErr pid = true ∨ env.waitErr pid = true) :
    (runnerStep env command st).exitCode = some 1 ∧
    startedCount (runnerStep env command st).trace = startedCount st.trace ∧
    ∀ sigs : List Unit,
      sigs.foldl (fun s _ => runnerStep env command s) (runnerStep env command st)
        = runnerStep env command st := by
  have hkr : killProcess env pid = KillResult.fatalKill ∨
      killProcess env pid = KillResult.fatalWait := by
    rcases herr with h | h
    · left
      simp [killProcess, h]
    · by_cases hk : env.killErr pid
      · left
        simp [killProcess, hk]
      · right
        simp [killProcess, hk, h]
  rcases hkr with h | h
  · have hstep : runnerStep env command st = { st with exitCode := some 1 } := by
      simp [runnerStep, hx, hc, h]
    rw [hstep]
    exact ⟨rfl, rfl, fun sigs => foldl_runnerStep_absorb env command _ 1 rfl sigs⟩
  · have hstep : runnerStep env command st =
        { st with trace := st.trace ++ [Ev.killed pid], exitCode := some 1 } := by
      simp [runnerStep, hx, hc, h]
    rw [hstep]
    refine ⟨rfl, ?_, fun sigs => foldl_runnerStep_absorb env command _ 1 rfl sigs⟩
    simp [startedCount, List.countP_append, List.countP_cons, isStartedEv]

/-- An environment in which every `Kill` fails (and spawns succeed). -/
def killFailEnv : RunnerEnv :=
  { killErr := fun _ => true, waitErr := fun _ => false, startEnv := fun _ => allOkStart }

/-- C6 witness: with a running child of pid 0 and a failing `Kill`, the step
sets exit code 1 and starts nothing new. -/
theorem C6_kill_or_wait_error_is_fatal_witness :
    (runnerStep killFailEnv "myapp" ⟨some 0, 1, [Ev.started 0], none⟩).exitCode = some 1 ∧
    startedCount (runnerStep killFailEnv "myapp" ⟨some 0, 1, [Ev.started 0], none⟩).trace
      = startedCount [Ev.started 0] := by
  have h := C6_kill_or_wait_error_is_fatal killFailEnv "myapp"
    ⟨some 0, 1, [Ev.started 0], none⟩ 0 rfl rfl (Or.inl rfl)
  exact ⟨h.1, h.2.1⟩

/-- C7 counterexample: the claim says an interrupt while a child is running
makes the daemon reap the child and exit with code 0.  daemon.go installs no
signal handler at all (`installedSignalHandlers = []`), so the runtime
default applies: the child is not reaped by the daemon and the exit is not
code 0. -/
theorem C7_counterexample :
    ¬ (daemonOnInterrupt.childReapedBeforeExit = true ∧
       daemonOnInterrupt.exitCodeZero = true) := by
  decide

/-- C7 amended: the daemon installs no interrupt (or any other signal)
handler, and its dispatch loop selects only on watcher events and watcher
errors; an operator interrupt therefore kills the daemon through the
runtime's default disposition, without the daemon terminating or reaping the
child and without a zero exit code. -/
theorem C7_no_interrupt_handler :
    installedSignalHandlers = [] ∧
    mainDispatchCases = [SelectCase.watcherEvent, SelectCase.watcherError] ∧
    daemonOnInterrupt = runtimeDefaultInterrupt ∧
    daemonOnInterrupt.childReapedBeforeExit = false ∧
    daemonOnInterrupt.exitCodeZero = false :=
  ⟨rfl, rfl, rfl, rfl, rfl⟩

/-- C8: at startup (daemon.go:174-176) exactly one restart signal is placed
in the fresh capacity-20 channel before the dispatch loop begins, and the
runner consuming just that queue — with no file-change event ever arriving —
starts the managed command exactly once and keeps running. -/
theorem C8_one_initial_signal (command : String) :
    startRunInitial.buffer = [()] ∧
    chanSend startRunChan = some startRunInitial ∧
    startedCount (runnerRun allOkEnv command startRunInitial.buffer).trace = 1 ∧
    (runnerRun allOkEnv command startRunInitial.buffer).exitCode = none := by
  refine ⟨rfl, rfl, ?_, (runnerRun_allOk command _).1⟩
  simpa using (runnerRun_allOk command startRunInitial.buffer).2

/-- C9: the compiled fallback pattern is the disjunction of the managed
command's name (every `./` removed) and the user pattern, anchored at
end-of-string: (i) `fullPattern` has exactly that shape; (ii) `./` removal on
the reference command; (iii) compiling `fullPattern "./myapp" FilePattern`
yields literally `(myapp|<user pattern>)$`; (iv) any path ending with the
command name matches the compiled pattern; and (v) such an event is a
candidate and (with no exclusions configured) triggers a restart. -/
theorem C9_fallback_pattern_shape :
    (∀ command pat : String,
      fullPattern command pat
        = "(" ++ stringsReplaceDotSlash command ++ "|" ++ pat ++ ")$") ∧
    stringsReplaceDotSlash "./myapp" = "myapp" ∧
    (∃ u : Re, regexpMustCompile (fullPattern "./myapp" FilePattern)
        = some (fallbackRe "myapp".data u)) ∧
    (∀ (cmdName : List Char) (u : Re) (path : List Char),
      cmdName <:+ path → reMatch (fallbackRe cmdName u) path = true) ∧
    (∀ (path : String) (u : Re), "myapp".data <:+ path.data →
      handleEvent [] [] (fallbackRe "myapp".data u) path = .ok true) := by
  refine ⟨fun _ _ => rfl, rfl, ⟨_, rfl⟩, fallbackRe_matches, ?_⟩
  intro path u h
  have hne : path ≠ "" := by
    intro habs
    subst habs
    have hlen := h.length_le
    exact absurd hlen (by decide)
  exact handleEvent_no_globs _ path hne (fallbackRe_matches "myapp".data u path.data h)

/-- C9 witness: the path `/proj/myapp` ends with the command name `myapp`,
matches the compiled fallback shape, and triggers a restart. -/
theorem C9_fallback_pattern_shape_witness :
    reMatch (fallbackRe "myapp".data Re.eps) "/proj/myapp".data = true ∧
    handleEvent [] [] (fallbackRe "myapp".data Re.eps) "/proj/myapp" = Except.ok true := by
  have h := C9_fallback_pattern_shape
  exact ⟨h.2.2.2.1 "myapp".data Re.eps "/proj/myapp".data ⟨"/proj/".data, rfl⟩,
         h.2.2.2.2 "/proj/myapp" Re.eps ⟨"/proj/".data, rfl⟩⟩

/-- C10: `startCommand` splits its command string on single spaces, takes
the head field as the executable name and the remaining fields as the
arguments; no field ever contains a space (so an argument with a space can
never reach the child as one argument), and the child is configured to
inherit the daemon's standard output and standard error. -/
theorem C10_startCommand_split_and_streams (command : String) (env : StartEnv)
    (h1 : env.stdoutPipeErr = false) (h2 : env.stderrPipeErr = false)
    (h3 : env.startErr = false) :
    ∃ cmd : GoCmd,
      startCommand env command = .ok cmd ∧
      cmd.name = ((goSplitSpace command.data).map fun l => (⟨l⟩ : String)).headD "" ∧
      cmd.args = ((goSplitSpace command.data).map fun l => (⟨l⟩ : String)).tail ∧
      ' ' ∉ cmd.name.data ∧
      (∀ a ∈ cmd.args, ' ' ∉ a.data) ∧
      cmd.stdout = Stdio.parentStdout ∧ cmd.stderr = Stdio.parentStderr := by
  refine ⟨{ name := ((goSplitSpace command.data).map fun l => (⟨l⟩ : String)).headD "",
            args := ((goSplitSpace command.data).map fun l => (⟨l⟩ : String)).tail,
            stdout := .parentStdout, stderr := .parentStderr },
          ?_, rfl, rfl, ?_, ?_, rfl, rfl⟩
  · simp [startCommand, h1, h2, h3]
  · cases hg : goSplitSpace command.data with
    | nil => exact absurd hg (goSplitSpace_ne_nil _)
    | cons p ps =>
      show ' ' ∉ p
      exact goSplitSpace_no_space _ p (by rw [hg]; exact List.mem_cons_self p ps)
  · intro a ha
    have hmem : a ∈ (goSplitSpace command.data).map fun l => (⟨l⟩ : String) :=
      List.mem_of_mem_tail ha
    obtain ⟨l, hl, rfl⟩ := List.mem_map.mp hmem
    exact goSplitSpace_no_space _ l hl

/-- C10 witness: `go run ./app` is split into executable `go` and arguments
`run`, `./app`, with both streams inherited. -/
theorem C10_startCommand_split_and_streams_witness :
    ∃ cmd : GoCmd,
      startCommand allOkStart "go run ./app" = Except.ok cmd ∧
      cmd.stdout = Stdio.parentStdout ∧ cmd.stderr = Stdio.parentStderr ∧
      ∀ a ∈ cmd.args, ' ' ∉ a.data := by
  obtain ⟨cmd, h1, h2, h3, h4, h5, h6, h7⟩ :=
    C10_startCommand_split_and_streams "go run ./app" allOkStart rfl rfl rfl
  exact ⟨cmd, h1, h6, h7, h5⟩

end Reload
